import Mathlib

/-!
Verification of the in-process sandboxed code-grading subsystem
(`codeRunner`: functions `runInSandbox` and `gradeCode`).

The grader receives an untrusted source-code string, an entry-point name
and a list of test cases.  For each test case it (1) creates a fresh
evaluation context exposing only `console` (with a discarding `log`),
`Math`, `Date` and `JSON`, (2) compiles `code` wrapped with a trailing
expression that evaluates to the entry point when it is a function,
(3) runs that script in the context under a 1000 ms timeout,
(4) invokes the resulting function on the test arguments — this
invocation is a plain call, outside any timeout — and (5) compares the
returned value with the expected one by equality of their
`JSON.stringify` serializations.  Failures of any step are caught per
test case and recorded as a failing result.

The embedding below is parametric in the semantics of the submitted
code: a `Submission σ` packages the observable behaviour of one
(code, entryPoint) pair — whether it compiles, what running its
top level in a fresh context yields (with a wall-clock cost, so the
timeout is expressible), and what invoking the entry point from a given
sandbox state on given arguments yields.  Numbers are modelled as
integers (the exact fragment the claims use); host-level outcomes
distinguish normal return, an escaping exception, and non-termination.
-/

namespace CodeRunner

/-- Runtime values exchanged with the sandboxed code, restricted to the
JSON-expressible universe plus `undefined` (which `JSON.stringify` maps
to no output at all). -/
inductive Value : Type
  | vNull : Value
  | vUndefined : Value
  | vBool : Bool → Value
  | vNum : Int → Value
  | vStr : String → Value
  | vArr : List Value → Value
  | vObj : List (String × Value) → Value

/-- Escape of a single character inside a JSON string literal. -/
def jsonEscape (c : Char) : String :=
  if c = '"' then "\\\""
  else if c = '\\' then "\\\\"
  else String.singleton c

/-- Quoted JSON string literal. -/
def jsonQuote (s : String) : String :=
  "\"" ++ String.join (s.toList.map jsonEscape) ++ "\""

mutual

/-- Model of `JSON.stringify` on `Value`: `undefined` serializes to
nothing (`none`), matching JavaScript where `JSON.stringify(undefined)`
is `undefined`. -/
def stringify : Value → Option String
  | .vNull => some "null"
  | .vUndefined => none
  | .vBool b => some (cond b "true" "false")
  | .vNum n => some (toString n)
  | .vStr s => some (jsonQuote s)
  | .vArr l => some ("[" ++ String.intercalate "," (stringifyElems l) ++ "]")
  | .vObj fs => some ("\x7b" ++ String.intercalate "," (stringifyFields fs) ++ "\x7d")

/-- Array elements: an `undefined` element serializes as `"null"`,
as in JavaScript. -/
def stringifyElems : List Value → List String
  | [] => []
  | v :: vs => ((stringify v).getD "null") :: stringifyElems vs

/-- Object fields: a field whose value serializes to nothing is
skipped, as in JavaScript. -/
def stringifyFields : List (String × Value) → List String
  | [] => []
  | (k, v) :: fs =>
    match stringify v with
    | none => stringifyFields fs
    | some s => (jsonQuote k ++ ":" ++ s) :: stringifyFields fs

end

/-- Outcome of running a piece of untrusted code, annotated with its
wall-clock cost in milliseconds: it returns a value, throws an
exception carrying a message, or never terminates. -/
inductive Exec (α : Type) : Type
  | ret : Nat → α → Exec α
  | throw : Nat → String → Exec α
  | diverge : Exec α

/-- Outcome at the host level, as observed by a caller of the grader:
a normal return, an exception escaping to the caller, or
non-termination of the grading call itself. -/
inductive HOut (α : Type) : Type
  | ret : α → HOut α
  | raise : String → HOut α
  | hang : HOut α

/-- Observable sandbox-construction steps of one `runInSandbox` call,
recorded so that claims about how many contexts are created and how
many times the code is compiled can be stated. -/
inductive Event : Type
  | createContext : Event
  | compileScript : Event
  | runScript : Event
  | invokeEntry : Event
  deriving DecidableEq, Repr

/-- Abstract semantics of one submitted (code, entryPoint) pair,
parametric in the type `σ` of top-level sandbox state the code
manipulates.

`compile` is `some msg` when `new vm.Script(wrapped)` throws a
`SyntaxError` with message `msg`, and `none` when the code compiles.

`scriptEval` is the behaviour of evaluating the wrapped script in a
fresh context built from the allow-listed globals: on success it
yields the resulting top-level state together with whether
`typeof entry` is a function (the wrapped script evaluates to the
entry point exactly in that case).

`call` is the behaviour of `fn.apply(null, args)`: invoking the entry
point from a given top-level state on given arguments, yielding the
returned value and the (possibly mutated) state. -/
structure Submission (σ : Type) : Type where
  compile : Option String
  scriptEval : Exec (σ × Bool)
  call : σ → List Value → Exec (Value × σ)

/-- Per-evaluation wall-clock budget used by the source: 1000 ms,
passed as `timeout` to `script.runInContext`. -/
def timeoutMs : Nat := 1000

/-- Message of the error Node raises when a script evaluation exceeds
its timeout. -/
def timeoutErrorMsg : String := "Script execution timed out after 1000ms"

/-- Semantics of evaluating code under the `timeout` option: a run
that diverges or whose cost exceeds the limit is aborted with the
timeout error; otherwise its own outcome stands. -/
def applyTimeout {α : Type} (limit : Nat) : Exec α → Except String α
  | .diverge => .error timeoutErrorMsg
  | .throw c m => if limit < c then .error timeoutErrorMsg else .error m
  | .ret c a => if limit < c then .error timeoutErrorMsg else .ok a

/-- Model of `runInSandbox(code, entry, args)`: create a fresh context,
compile the wrapped code (a `SyntaxError` escapes), run it in the
context under the 1000 ms timeout (a thrown error or a timeout
escapes), throw when the entry point is not a function, and finally
invoke the entry point.  The invocation `fn.apply(null, args)` happens
outside `runInContext`, so no timeout applies to it: a diverging entry
point makes the whole call hang.  The returned trace records the
sandbox-construction steps that actually happened. -/
def runInSandbox {σ : Type} (sub : Submission σ) (args : List Value) :
    List Event × HOut Value :=
  match sub.compile with
  | some msg => ([.createContext, .compileScript], .raise msg)
  | none =>
    match applyTimeout timeoutMs sub.scriptEval with
    | .error msg => ([.createContext, .compileScript, .runScript], .raise msg)
    | .ok (st, isFn) =>
      if isFn then
        match sub.call st args with
        | .diverge => ([.createContext, .compileScript, .runScript, .invokeEntry], .hang)
        | .throw _ msg =>
          ([.createContext, .compileScript, .runScript, .invokeEntry], .raise msg)
        | .ret _ (v, _) =>
          ([.createContext, .compileScript, .runScript, .invokeEntry], .ret v)
      else ([.createContext, .compileScript, .runScript], .raise "Entry function not found")

/-- One test case: positional arguments and the expected return value. -/
structure TestCase : Type where
  args : List Value
  expected : Value

/-- One entry of the `results` array: on a completed invocation the
source pushes `{ ok, output, expected }`; on a caught exception it
pushes `{ ok: false, error }`. -/
inductive TestResult : Type
  | done : Bool → Value → Value → TestResult
  | failed : String → TestResult

/-- Whether a result counts as passed: the `ok` flag, and `false` for a
captured failure. -/
def TestResult.passed : TestResult → Bool
  | .done ok _ _ => ok
  | .failed _ => false

/-- Model of the `for (const t of tests)` loop of `gradeCode`: each
iteration runs the sandbox on the test's arguments inside `try`,
compares serializations and pushes a result; a caught exception pushes
a failing result with the exception's message.  A hanging iteration
makes the whole loop hang. -/
def gradeLoopOut {σ : Type} (sub : Submission σ) : List TestCase → HOut (Nat × List TestResult)
  | [] => .ret (0, [])
  | t :: ts =>
    match (runInSandbox sub (t.args)).2 with
    | .hang => .hang
    | .raise m =>
      match gradeLoopOut sub ts with
      | .hang => .hang
      | .raise m2 => .raise m2
      | .ret (p, rs) => .ret (p, .failed m :: rs)
    | .ret v =>
      let ok := stringify v == stringify (t.expected)
      match gradeLoopOut sub ts with
      | .hang => .hang
      | .raise m2 => .raise m2
      | .ret (p, rs) => .ret ((if ok then p + 1 else p), .done ok v (t.expected) :: rs)

/-- Sandbox-construction trace of a `gradeCode` call: the events of the
successive `runInSandbox` calls, cut short when an iteration hangs. -/
def gradeTrace {σ : Type} (sub : Submission σ) : List TestCase → List Event
  | [] => []
  | t :: ts =>
    match (runInSandbox sub (t.args)).2 with
    | .hang => (runInSandbox sub (t.args)).1
    | .raise _ => (runInSandbox sub (t.args)).1 ++ gradeTrace sub ts
    | .ret _ => (runInSandbox sub (t.args)).1 ++ gradeTrace sub ts

/-- JavaScript `Math.round` on the (non-negative) rationals produced by
the grader: round half away from zero, i.e. `⌊q + 1/2⌋` for `q ≥ 0`. -/
def jsRound (q : ℚ) : Int := ⌊q + 1 / 2⌋

/-- The report returned by `gradeCode`:
`{ passed, total, percentage, results }`. -/
structure GradeReport : Type where
  passed : Nat
  total : Nat
  percentage : Int
  results : List TestResult

/-- Model of `gradeCode({ code, entry, tests })`: run the loop, then
aggregate `percentage = tests.length ? Math.round((passed / tests.length) * 100) : 0`
and return the report. -/
def gradeCode {σ : Type} (sub : Submission σ) (tests : List TestCase) : HOut GradeReport :=
  match gradeLoopOut sub tests with
  | .hang => .hang
  | .raise m => .raise m
  | .ret (p, rs) =>
    .ret { passed := p
           total := tests.length
           percentage :=
             if tests.length = 0 then 0
             else jsRound (((p : ℚ) / (tests.length : ℚ)) * 100)
           results := rs }

/-- Result the grader produces for one test case in isolation: the
outcome of one fresh `runInSandbox` call on the test's arguments,
folded through the `try`/`catch` of the loop body.  (The `hang` case
never reaches a report; the value there is irrelevant.) -/
def perTestResult {σ : Type} (sub : Submission σ) (t : TestCase) : TestResult :=
  match (runInSandbox sub (t.args)).2 with
  | .hang => .failed timeoutErrorMsg
  | .raise m => .failed m
  | .ret v => .done (stringify v == stringify (t.expected)) v (t.expected)

/-! Concrete submissions used by the witness statements, each modelling
one of the spec's scenarios. -/

/-- Behaviour of `"function add(a,b){return a+b;}"` with entry `"add"`:
compiles, its top level defines the entry as a function without other
state, and invoking the entry adds the two numeric arguments. -/
def exAdd : Submission Unit :=
  { compile := none
    scriptEval := .ret 1 (((), true))
    call := fun _ args =>
      match args with
      | [Value.vNum a, Value.vNum b] => .ret 1 ((.vNum (a + b), ()))
      | _ => .throw 1 "bad arguments" }

/-- The spec's first concrete scenario:
`[{args:[1,2], expected:3}, {args:[2,2], expected:5}]`. -/
def exTests : List TestCase :=
  [ { args := [.vNum 1, .vNum 2], expected := .vNum 3 },
    { args := [.vNum 2, .vNum 2], expected := .vNum 5 } ]

/-- Behaviour of a submission that does not compile, such as
`"this is not valid syntax"` followed by three open braces:
`new vm.Script` throws a `SyntaxError`. -/
def exSyntax : Submission Unit :=
  { compile := some "Unexpected token"
    scriptEval := .ret 0 (((), false))
    call := fun _ _ => .throw 0 "unreachable" }

/-- Behaviour of a submission that compiles but defines no function
named after the entry point. -/
def exNoEntry : Submission Unit :=
  { compile := none
    scriptEval := .ret 1 (((), false))
    call := fun _ _ => .throw 0 "unreachable" }

/-- Behaviour of `"function f(){ while(true){} }"` with entry `"f"`:
compiles quickly, defines the entry, and invoking the entry never
terminates. -/
def exLoop : Submission Unit :=
  { compile := none
    scriptEval := .ret 1 (((), true))
    call := fun _ _ => .diverge }

/-- Test case `{args:[], expected:null}` of the spec's infinite-loop
scenario. -/
def exLoopTests : List TestCase :=
  [ { args := [], expected := .vNull } ]

/-- Submission over a boolean sandbox state that starts at `false` and
whose entry invocation flips the top-level state to `true` while
returning the state it saw. -/
def exMut : Submission Bool :=
  { compile := none
    scriptEval := .ret 1 ((false, true))
    call := fun st _ => .ret 1 ((.vBool st, true)) }

/-- Like `exMut`, but behaving completely differently when invoked
from the mutated state `true` (it diverges there).  Since every test
case gets a fresh context, that difference is unobservable. -/
def exMutDiverging : Submission Bool :=
  { compile := none
    scriptEval := .ret 1 ((false, true))
    call := fun st _ => if st then .diverge else .ret 1 ((.vBool st, true)) }

/-! Helper lemmas about the embedding. -/

lemma applyTimeout_eq_ok {α : Type} {l : Nat} {e : Exec α} {a : α}
    (h : applyTimeout l e = .ok a) : ∃ c, e = .ret c a ∧ c ≤ l := by
  cases e with
  | ret c x =>
    rw [applyTimeout] at h
    split at h
    · cases h
    · cases h
      next hlt => exact ⟨c, rfl, Nat.not_lt.mp hlt⟩
  | throw c m =>
    rw [applyTimeout] at h
    split at h <;> cases h
  | diverge => cases h

lemma gradeLoopOut_ne_raise {σ : Type} (sub : Submission σ) :
    ∀ (ts : List TestCase) (m : String), gradeLoopOut sub ts ≠ .raise m := by
  intro ts
  induction ts with
  | nil => intro m h; cases h
  | cons t ts ih =>
    intro m h
    rw [gradeLoopOut] at h
    cases h2 : (runInSandbox sub (t.args)).2 with
    | hang => rw [h2] at h; cases h
    | raise m1 =>
      rw [h2] at h
      cases h3 : gradeLoopOut sub ts with
      | hang => rw [h3] at h; cases h
      | raise m2 => exact ih m2 h3
      | ret pr => rw [h3] at h; cases h
    | ret v =>
      rw [h2] at h
      cases h3 : gradeLoopOut sub ts with
      | hang => rw [h3] at h; cases h
      | raise m2 => exact ih m2 h3
      | ret pr => rw [h3] at h; cases h

lemma gradeLoopOut_ret_spec {σ : Type} (sub : Submission σ) :
    ∀ (ts : List TestCase) (p : Nat) (rs : List TestResult),
      gradeLoopOut sub ts = .ret ((p, rs)) →
      rs = ts.map (perTestResult sub) ∧
      p = rs.countP TestResult.passed ∧
      (∀ t ∈ ts, (runInSandbox sub (t.args)).2 ≠ HOut.hang) ∧
      gradeTrace sub ts = ts.flatMap (fun t => (runInSandbox sub (t.args)).1) := by
  intro ts
  induction ts with
  | nil =>
    intro p rs h
    rw [gradeLoopOut] at h
    cases h
    refine ⟨rfl, rfl, ?_, rfl⟩
    intro t ht
    cases ht
  | cons t ts ih =>
    intro p rs h
    rw [gradeLoopOut] at h
    cases h2 : (runInSandbox sub (t.args)).2 with
    | hang => rw [h2] at h; cases h
    | raise m1 =>
      rw [h2] at h
      cases h3 : gradeLoopOut sub ts with
      | hang => rw [h3] at h; cases h
      | raise m2 => exact absurd h3 (gradeLoopOut_ne_raise sub ts m2)
      | ret pr =>
        obtain ⟨p1, rs1⟩ := pr
        rw [h3] at h
        cases h
        obtain ⟨hmap, hcount, hnohang, htrace⟩ := ih _ _ h3
        refine ⟨?_, ?_, ?_, ?_⟩
        · simp only [List.map_cons, perTestResult, h2, ← hmap]
        · rw [List.countP_cons]
          simp [TestResult.passed, hcount]
        · intro u hu
          rcases List.mem_cons.mp hu with hu | hu
          · rw [hu, h2]; intro hc; cases hc
          · exact hnohang u hu
        · rw [gradeTrace, h2, htrace]; rfl
    | ret v =>
      rw [h2] at h
      cases h3 : gradeLoopOut sub ts with
      | hang => rw [h3] at h; cases h
      | raise m2 => exact absurd h3 (gradeLoopOut_ne_raise sub ts m2)
      | ret pr =>
        obtain ⟨p1, rs1⟩ := pr
        rw [h3] at h
        cases h
        obtain ⟨hmap, hcount, hnohang, htrace⟩ := ih _ _ h3
        refine ⟨?_, ?_, ?_, ?_⟩
        · simp only [List.map_cons, perTestResult, h2, ← hmap]
        · rw [List.countP_cons]
          cases hok : (stringify v == stringify (t.expected)) <;>
            simp [TestResult.passed, hok, hcount]
        · intro u hu
          rcases List.mem_cons.mp hu with hu | hu
          · rw [hu, h2]; intro hc; cases hc
          · exact hnohang u hu
        · rw [gradeTrace, h2, htrace]; rfl

lemma gradeLoopOut_ret_of_no_hang {σ : Type} (sub : Submission σ) :
    ∀ (ts : List TestCase),
      (∀ t ∈ ts, (runInSandbox sub (t.args)).2 ≠ HOut.hang) →
      ∃ p rs, gradeLoopOut sub ts = .ret ((p, rs)) := by
  intro ts
  induction ts with
  | nil => intro _; exact ⟨0, [], rfl⟩
  | cons t ts ih =>
    intro h
    obtain ⟨p, rs, h3⟩ := ih (fun u hu => h u (List.mem_cons_of_mem t hu))
    cases h2 : (runInSandbox sub (t.args)).2 with
    | hang => exact absurd h2 (h t (List.mem_cons_self t ts))
    | raise m =>
      refine ⟨p, .failed m :: rs, ?_⟩
      rw [gradeLoopOut, h2, h3]
    | ret v =>
      refine ⟨if stringify v == stringify (t.expected) then p + 1 else p,
        .done (stringify v == stringify (t.expected)) v (t.expected) :: rs, ?_⟩
      rw [gradeLoopOut, h2, h3]

lemma gradeCode_of_loop {σ : Type} (sub : Submission σ) (tests : List TestCase)
    (p : Nat) (rs : List TestResult) (h : gradeLoopOut sub tests = .ret ((p, rs))) :
    gradeCode sub tests =
      .ret { passed := p
             total := tests.length
             percentage :=
               if tests.length = 0 then 0
               else jsRound (((p : ℚ) / (tests.length : ℚ)) * 100)
             results := rs } := by
  rw [gradeCode, h]

lemma gradeCode_ret_inv {σ : Type} (sub : Submission σ) (tests : List TestCase)
    (report : GradeReport) (h : gradeCode sub tests = .ret report) :
    ∃ p rs, gradeLoopOut sub tests = .ret ((p, rs)) ∧
      report = { passed := p
                 total := tests.length
                 percentage :=
                   if tests.length = 0 then 0
                   else jsRound (((p : ℚ) / (tests.length : ℚ)) * 100)
                 results := rs } := by
  rw [gradeCode] at h
  cases h3 : gradeLoopOut sub tests with
  | hang => rw [h3] at h; cases h
  | raise m => exact absurd h3 (gradeLoopOut_ne_raise sub tests m)
  | ret pr =>
    obtain ⟨p, rs⟩ := pr
    rw [h3] at h
    cases h
    exact ⟨p, rs, rfl, rfl⟩

lemma jsRound_of_bounds {q : ℚ} {z : ℤ} (h1 : (z : ℚ) ≤ q + 1 / 2)
    (h2 : q + 1 / 2 < z + 1) : jsRound q = z := by
  rw [jsRound]
  exact Int.floor_eq_iff.mpr ⟨h1, by exact_mod_cast h2⟩

lemma jsRound_zero_ratio (n : ℕ) : jsRound ((0 : ℚ) / (n : ℚ) * 100) = 0 := by
  have h : ((0 : ℚ) / (n : ℚ)) * 100 = 0 := by
    rw [zero_div, zero_mul]
  rw [h]
  exact jsRound_of_bounds (by norm_num) (by norm_num)

lemma jsRound_nonneg_of_nonneg {q : ℚ} (h : 0 ≤ q) : 0 ≤ jsRound q := by
  rw [jsRound]
  exact Int.le_floor.mpr (by push_cast; linarith)

lemma jsRound_le_hundred {q : ℚ} (h : q ≤ 100) : jsRound q ≤ 100 := by
  have h1 : ((jsRound q : ℤ) : ℚ) ≤ q + 1 / 2 := Int.floor_le _
  have h2 : ((jsRound q : ℤ) : ℚ) < 101 := lt_of_le_of_lt h1 (by linarith)
  have h3 : (jsRound q : ℤ) < 101 := by exact_mod_cast h2
  omega

lemma ratio_le_hundred {p t : ℕ} (hle : p ≤ t) (hpos : 0 < t) :
    ((p : ℚ) / (t : ℚ)) * 100 ≤ 100 := by
  have ht : (0 : ℚ) < (t : ℚ) := by exact_mod_cast hpos
  have hp : (p : ℚ) ≤ (t : ℚ) := by exact_mod_cast hle
  rw [div_mul_eq_mul_div, div_le_iff₀ ht]
  nlinarith

lemma count_flatMap_of_one {β : Type} (e : Event) :
    ∀ (l : List β) (f : β → List Event),
      (∀ b ∈ l, (f b).count e = 1) → ((l.flatMap f).count e) = l.length := by
  intro l
  induction l with
  | nil => intro f _; rfl
  | cons b l ih =>
    intro f h
    rw [List.flatMap_cons, List.count_append, h b (List.mem_cons_self b l),
      ih f (fun u hu => h u (List.mem_cons_of_mem b hu)), List.length_cons,
      Nat.add_comm]

lemma runInSandbox_count {σ : Type} (sub : Submission σ) (args : List Value) :
    ((runInSandbox sub args).1).count Event.createContext = 1 ∧
    ((runInSandbox sub args).1).count Event.compileScript = 1 := by
  rw [runInSandbox]
  split
  · exact ⟨rfl, rfl⟩
  · split
    · exact ⟨rfl, rfl⟩
    · split
      · split
        · exact ⟨rfl, rfl⟩
        · exact ⟨rfl, rfl⟩
        · exact ⟨rfl, rfl⟩
      · exact ⟨rfl, rfl⟩

lemma runInSandbox_congr {σ : Type} (sub sub2 : Submission σ)
    (hc : sub.compile = sub2.compile) (hs : sub.scriptEval = sub2.scriptEval)
    (hcall : ∀ c st isFn, sub.scriptEval = .ret c ((st, isFn)) →
      ∀ args, sub.call st args = sub2.call st args) :
    ∀ args, runInSandbox sub args = runInSandbox sub2 args := by
  intro args
  obtain ⟨c1, s1, f1⟩ := sub
  obtain ⟨c2, s2, f2⟩ := sub2
  dsimp only at hc hs hcall
  subst hc
  subst hs
  cases c1 with
  | some m => rfl
  | none =>
    cases s1 with
    | diverge => rfl
    | throw c m =>
      by_cases htc : timeoutMs < c <;> simp [runInSandbox, applyTimeout, htc]
    | ret c a =>
      obtain ⟨st, isFn⟩ := a
      by_cases htc : timeoutMs < c
      · simp [runInSandbox, applyTimeout, htc]
      · cases isFn with
        | false => simp [runInSandbox, applyTimeout, htc]
        | true =>
          have hf : f1 st args = f2 st args := hcall c st true rfl args
          simp only [runInSandbox, applyTimeout, if_neg htc, hf]

/-- The report the grader computes on the add scenario, with the
percentage kept as the unreduced rounding expression so that the
equation with `gradeCode` holds by definitional unfolding. -/
def exAddReport : GradeReport :=
  { passed := 1
    total := 2
    percentage := jsRound ((((1 : ℕ) : ℚ) / ((2 : ℕ) : ℚ)) * 100)
    results := [ .done true (.vNum 3) (.vNum 3), .done false (.vNum 4) (.vNum 5) ] }

lemma gradeCode_exAdd : gradeCode exAdd exTests = .ret exAddReport := rfl

/-- The report the grader computes on a two-test run of a submission
with a syntax error. -/
def exSyntaxReport : GradeReport :=
  { passed := 0
    total := 2
    percentage := jsRound ((((0 : ℕ) : ℚ) / ((2 : ℕ) : ℚ)) * 100)
    results := [ .failed "Unexpected token", .failed "Unexpected token" ] }

lemma gradeCode_exSyntax : gradeCode exSyntax exTests = .ret exSyntaxReport := rfl

/-! Claim theorems. -/

/-- C1: whenever `gradeCode` returns a report, the report's `results`
sequence has exactly as many elements as the supplied test list, and it
is precisely the supplied test cases mapped in order through the
per-test evaluation — so the i-th result is produced from the i-th test
case, including test cases whose evaluation failed with an exception. -/
theorem gradeCode_results_align (σ : Type) (sub : Submission σ)
    (tests : List TestCase) (report : GradeReport)
    (h : gradeCode sub tests = .ret report) :
    report.results.length = tests.length ∧
    report.results = tests.map (perTestResult sub) := by
  obtain ⟨p, rs, hloop, hrep⟩ := gradeCode_ret_inv sub tests report h
  obtain ⟨hmap, -, -, -⟩ := gradeLoopOut_ret_spec sub tests p rs hloop
  subst hrep
  exact ⟨by rw [hmap, List.length_map], hmap⟩

/-- Witness for C1 at the spec's add scenario. -/
theorem gradeCode_results_align_witness :
    exAddReport.results.length = exTests.length ∧
    exAddReport.results = exTests.map (perTestResult exAdd) :=
  gradeCode_results_align Unit exAdd exTests exAddReport gradeCode_exAdd

/-- C2 as stated is false on the code: it asserts that `gradeCode`
returns a `GradeReport` normally for every submission, but a
submission whose entry-point invocation never terminates makes the
grading call hang without returning anything (the invocation is not
run under the timeout — see the divergent-entry theorem for C4). -/
theorem gradeCode_returns_normally_counterexample :
    ¬ ∃ report, gradeCode exLoop exLoopTests = HOut.ret report :=
  fun ⟨_, h⟩ => HOut.noConfusion h

/-- C2, amended: `gradeCode` never lets an exception escape to its
caller, and it returns a `GradeReport` normally whenever no test-case
invocation diverges (the entry-point invocation itself is not
time-limited, so a diverging invocation hangs the call instead); when
no test-case invocation diverges it returns a report normally; and a
test case whose sandbox run raised an exception (syntax error, missing
entry point, or runtime exception during invocation) shows up in the
returned report as a failed result carrying that exception's message,
at that test case's position. -/
theorem gradeCode_no_uncaught_exception (σ : Type) (sub : Submission σ)
    (tests : List TestCase) :
    (∀ m, gradeCode sub tests ≠ .raise m) ∧
    ((∀ t ∈ tests, (runInSandbox sub (t.args)).2 ≠ HOut.hang) →
      ∃ report, gradeCode sub tests = .ret report) ∧
    (∀ report, gradeCode sub tests = .ret report →
      ∀ (i : Nat) (hi : i < tests.length) (m : String),
        (runInSandbox sub ((tests.get ⟨i, hi⟩).args)).2 = HOut.raise m →
        ∃ hi2 : i < report.results.length,
          report.results.get ⟨i, hi2⟩ = .failed m) := by
  refine ⟨?_, ?_, ?_⟩
  · intro m h
    rw [gradeCode] at h
    cases h3 : gradeLoopOut sub tests with
    | hang => rw [h3] at h; cases h
    | raise m2 => exact gradeLoopOut_ne_raise sub tests m2 h3
    | ret pr =>
      obtain ⟨p, rs⟩ := pr
      rw [h3] at h
      cases h
  · intro hnh
    obtain ⟨p, rs, h3⟩ := gradeLoopOut_ret_of_no_hang sub tests hnh
    exact ⟨_, gradeCode_of_loop sub tests p rs h3⟩
  · intro report h i hi m hro
    obtain ⟨p, rs, hloop, hrep⟩ := gradeCode_ret_inv sub tests report h
    obtain ⟨hmap, -, -, -⟩ := gradeLoopOut_ret_spec sub tests p rs hloop
    subst hrep
    subst hmap
    have hi2 : i < (tests.map (perTestResult sub)).length := by
      rw [List.length_map]; exact hi
    refine ⟨hi2, ?_⟩
    have hget : (tests.map (perTestResult sub)).get ⟨i, hi2⟩ =
        perTestResult sub (tests.get ⟨i, hi⟩) := by
      simp
    rw [hget, perTestResult, hro]

/-- Witness for C2: a submission with a syntax error, graded on two
test cases, yields a failed result with the syntax error's message at
position 0. -/
theorem gradeCode_no_uncaught_exception_witness :
    ∃ hi2 : 0 < exSyntaxReport.results.length,
      exSyntaxReport.results.get ⟨0, hi2⟩ = .failed "Unexpected token" :=
  (gradeCode_no_uncaught_exception Unit exSyntax exTests).2.2 exSyntaxReport
    gradeCode_exSyntax 0 (by decide) "Unexpected token" rfl

/-- C3: any report returned by `gradeCode` satisfies
`percentage = round(passed / total * 100)` when `total > 0` and
`percentage = 0` when `total = 0`; the percentage always lies in
`[0, 100]`; and grading an empty test list yields the all-zero report
with an empty results sequence. -/
theorem gradeCode_percentage_spec (σ : Type) (sub : Submission σ)
    (tests : List TestCase) (report : GradeReport)
    (h : gradeCode sub tests = .ret report) :
    (report.total = 0 → report.percentage = 0) ∧
    (0 < report.total →
      report.percentage = jsRound (((report.passed : ℚ) / (report.total : ℚ)) * 100)) ∧
    0 ≤ report.percentage ∧ report.percentage ≤ 100 ∧
    (tests = [] →
      report = { passed := 0, total := 0, percentage := 0, results := [] }) := by
  obtain ⟨p, rs, hloop, hrep⟩ := gradeCode_ret_inv sub tests report h
  obtain ⟨hmap, hcount, -, -⟩ := gradeLoopOut_ret_spec sub tests p rs hloop
  have hple : p ≤ tests.length := by
    rw [hcount]
    calc rs.countP TestResult.passed ≤ rs.length := List.countP_le_length _
      _ = tests.length := by rw [hmap, List.length_map]
  subst hrep
  by_cases h0 : tests.length = 0
  · refine ⟨fun _ => by simp [h0], fun hpos => absurd (h0 ▸ hpos) (lt_irrefl 0),
      by simp [h0], by simp [h0], ?_⟩
    intro htests
    subst htests
    have hrs : rs = [] := by simpa using hmap
    subst hrs
    have hp : p = 0 := by simpa using hcount
    subst hp
    rfl
  · have hpos : 0 < tests.length := Nat.pos_of_ne_zero h0
    refine ⟨fun ht => absurd ht h0, fun _ => by simp [h0], ?_, ?_, ?_⟩
    · simp only [if_neg h0]
      exact jsRound_nonneg_of_nonneg (by positivity)
    · simp only [if_neg h0]
      exact jsRound_le_hundred (ratio_le_hundred hple hpos)
    · intro htests
      exact absurd (by rw [htests]; rfl) h0

/-- Witness for C3 at the spec's add scenario. -/
theorem gradeCode_percentage_spec_witness :
    0 ≤ exAddReport.percentage ∧ exAddReport.percentage ≤ 100 :=
  ⟨(gradeCode_percentage_spec Unit exAdd exTests exAddReport gradeCode_exAdd).2.2.1,
   (gradeCode_percentage_spec Unit exAdd exTests exAddReport gradeCode_exAdd).2.2.2.1⟩

/-- C4 fails on the code: grading the spec's infinite-loop scenario —
a submission that compiles within budget and defines the entry point,
but whose invocation never terminates — makes the grading call itself
hang.  `fn.apply(null, args)` runs outside `script.runInContext`, so
the 1000 ms timeout does not cover the entry-point invocation: no
timeout-failure result is produced and no subsequent test case would
ever be evaluated. -/
theorem gradeCode_hangs_on_divergent_entry :
    gradeCode exLoop exLoopTests = HOut.hang := rfl

/-- C5: when the submitted code fails to compile, or compiles within
budget but does not define a callable with the entry-point name, the
grader still returns a full report — passed count 0, percentage 0, and
one failed result per test case, every one carrying the same captured
error message — never an empty or aborted report. -/
theorem gradeCode_hard_failure_full_report (σ : Type) (sub : Submission σ)
    (tests : List TestCase)
    (hfail : (∃ m, sub.compile = some m) ∨
      (sub.compile = none ∧
        ∃ c st, c ≤ timeoutMs ∧ sub.scriptEval = .ret c ((st, false)))) :
    ∃ report, gradeCode sub tests = .ret report ∧
      report.passed = 0 ∧ report.percentage = 0 ∧
      report.results.length = tests.length ∧
      ∃ m, ∀ r ∈ report.results, r = TestResult.failed m := by
  have hrun : ∃ m0, ∀ args, (runInSandbox sub args).2 = HOut.raise m0 := by
    rcases hfail with ⟨m, hc⟩ | ⟨hc, c, st, hcle, hs⟩
    · exact ⟨m, fun args => by simp [runInSandbox, hc]⟩
    · refine ⟨"Entry function not found", fun args => ?_⟩
      simp [runInSandbox, hc, hs, applyTimeout, Nat.not_lt.mpr hcle]
  obtain ⟨m0, hrun⟩ := hrun
  have hnh : ∀ t ∈ tests, (runInSandbox sub (t.args)).2 ≠ HOut.hang := by
    intro t _ hcontra
    rw [hrun (t.args)] at hcontra
    cases hcontra
  obtain ⟨p, rs, hloop⟩ := gradeLoopOut_ret_of_no_hang sub tests hnh
  obtain ⟨hmap, hcount, -, -⟩ := gradeLoopOut_ret_spec sub tests p rs hloop
  have hall : ∀ r ∈ rs, r = TestResult.failed m0 := by
    intro r hr
    rw [hmap] at hr
    obtain ⟨t, -, ht⟩ := List.mem_map.mp hr
    rw [← ht, perTestResult, hrun (t.args)]
  have hp : p = 0 := by
    rw [hcount, List.countP_eq_zero]
    intro r hr
    rw [hall r hr]
    simp [TestResult.passed]
  subst hp
  refine ⟨_, gradeCode_of_loop sub tests 0 rs hloop, rfl, ?_, ?_, ⟨m0, hall⟩⟩
  · by_cases h0 : tests.length = 0
    · simp [h0]
    · simp only [if_neg h0, Nat.cast_zero]
      exact jsRound_zero_ratio tests.length
  · rw [hmap, List.length_map]

/-- Witness for C5: the syntax-error submission graded on two tests. -/
theorem gradeCode_hard_failure_full_report_witness :
    ∃ report, gradeCode exSyntax exTests = .ret report ∧
      report.passed = 0 ∧ report.percentage = 0 ∧
      report.results.length = exTests.length ∧
      ∃ m, ∀ r ∈ report.results, r = TestResult.failed m :=
  gradeCode_hard_failure_full_report Unit exSyntax exTests
    (Or.inl ⟨"Unexpected token", rfl⟩)

/-- C6 as stated is false on the code: on a two-test grading call the
sandbox-construction trace contains two context creations and two
script compilations — one per test case — not a single context and a
single compilation for the whole call. -/
theorem gradeCode_single_context_counterexample :
    (gradeTrace exAdd exTests).count Event.createContext = 2 ∧
    (gradeTrace exAdd exTests).count Event.compileScript = 2 ∧
    ¬ ((gradeTrace exAdd exTests).count Event.createContext = 1 ∧
       (gradeTrace exAdd exTests).count Event.compileScript = 1) := by
  refine ⟨by decide, by decide, by decide⟩

/-- C6 amended: a `gradeCode` call that returns a report has
constructed one fresh evaluation context and performed one script
compilation per test case — `n` contexts and `n` compilations for `n`
test cases — rather than one context and one compilation shared by the
whole call. -/
theorem gradeCode_context_and_compile_per_test (σ : Type) (sub : Submission σ)
    (tests : List TestCase) (report : GradeReport)
    (h : gradeCode sub tests = .ret report) :
    (gradeTrace sub tests).count Event.createContext = tests.length ∧
    (gradeTrace sub tests).count Event.compileScript = tests.length := by
  obtain ⟨p, rs, hloop, -⟩ := gradeCode_ret_inv sub tests report h
  obtain ⟨-, -, -, htrace⟩ := gradeLoopOut_ret_spec sub tests p rs hloop
  rw [htrace]
  constructor
  · exact count_flatMap_of_one _ tests _ (fun t _ => (runInSandbox_count sub (t.args)).1)
  · exact count_flatMap_of_one _ tests _ (fun t _ => (runInSandbox_count sub (t.args)).2)

/-- Witness for the amended C6 at the spec's add scenario. -/
theorem gradeCode_context_and_compile_per_test_witness :
    (gradeTrace exAdd exTests).count Event.createContext = exTests.length ∧
    (gradeTrace exAdd exTests).count Event.compileScript = exTests.length :=
  gradeCode_context_and_compile_per_test Unit exAdd exTests exAddReport gradeCode_exAdd

/-- C7: a test case whose invocation completes with a value produces a
result whose `passed` flag is exactly the equality of the JSON
serializations of the actual and the expected value; and on the spec's
add scenario the grader reports passed count 1 of 2, percentage 50, a
passing first result, and a failing second result with actual output
4. -/
theorem gradeCode_pass_iff_serialization :
    (∀ (σ : Type) (sub : Submission σ) (t : TestCase) (v : Value),
      (runInSandbox sub (t.args)).2 = HOut.ret v →
      perTestResult sub t =
        .done (stringify v == stringify (t.expected)) v (t.expected)) ∧
    gradeCode exAdd exTests =
      .ret { passed := 1, total := 2, percentage := 50,
             results := [ .done true (.vNum 3) (.vNum 3),
                          .done false (.vNum 4) (.vNum 5) ] } := by
  constructor
  · intro σ sub t v hv
    rw [perTestResult, hv]
  · have h50 : jsRound ((((1 : ℕ) : ℚ) / ((2 : ℕ) : ℚ)) * 100) = 50 :=
      jsRound_of_bounds (by norm_num) (by norm_num)
    calc gradeCode exAdd exTests = .ret exAddReport := gradeCode_exAdd
      _ = _ := by simp only [exAddReport, h50]

/-- Witness for C7: the completed first invocation of the add scenario. -/
theorem gradeCode_pass_iff_serialization_witness :
    perTestResult exAdd { args := [.vNum 1, .vNum 2], expected := .vNum 3 } =
      .done ((stringify (.vNum 3)) == (stringify (.vNum 3))) (.vNum 3) (.vNum 3) :=
  gradeCode_pass_iff_serialization.1 Unit exAdd
    { args := [.vNum 1, .vNum 2], expected := .vNum 3 } (.vNum 3) rfl

/-- C9: `gradeCode` is deterministic — two calls with identical
submission semantics and identical test lists yield identical reports.
The claim's assumption that the entry point is a pure function of its
arguments is embodied by the embedding itself: a `Submission` packages
the behaviour as functions, so identical arguments give identical
evaluations in every component. -/
theorem gradeCode_idempotent (σ : Type) (sub sub2 : Submission σ)
    (tests tests2 : List TestCase) (hsub : sub = sub2) (htests : tests = tests2) :
    gradeCode sub tests = gradeCode sub2 tests2 := by
  subst hsub
  subst htests
  rfl

/-- Witness for C9 at the spec's add scenario. -/
theorem gradeCode_idempotent_witness :
    gradeCode exAdd exTests = gradeCode exAdd exTests :=
  gradeCode_idempotent Unit exAdd exAdd exTests exTests rfl rfl

/-- C10: every test case's invocation runs in an evaluation context and
compiled script constructed freshly for that test case.  Consequently
the grading outcome depends on the entry point's behaviour only at the
fresh top-level state produced by evaluating the submitted code — two
submissions agreeing there are graded identically even if they behave
arbitrarily differently at mutated states, so a mutation of top-level
sandbox state made while evaluating one test case is never observable
by any later test case — and every test case's sandbox run performs
its own context creation. -/
theorem gradeCode_fresh_state_per_test (σ : Type) (sub sub2 : Submission σ)
    (hc : sub.compile = sub2.compile) (hs : sub.scriptEval = sub2.scriptEval)
    (hcall : ∀ c st isFn, sub.scriptEval = .ret c ((st, isFn)) →
      ∀ args, sub.call st args = sub2.call st args) :
    (∀ tests, gradeCode sub tests = gradeCode sub2 tests) ∧
    (∀ args, ((runInSandbox sub args).1).count Event.createContext = 1) := by
  have hrun := runInSandbox_congr sub sub2 hc hs hcall
  constructor
  · intro tests
    have hloop : ∀ ts, gradeLoopOut sub ts = gradeLoopOut sub2 ts := by
      intro ts
      induction ts with
      | nil => rfl
      | cons t ts ih => rw [gradeLoopOut, gradeLoopOut, hrun (t.args), ih]
    rw [gradeCode, gradeCode, hloop tests]
  · intro args
    exact (runInSandbox_count sub args).1

/-- Witness for C10: a submission whose entry mutates the sandbox
state and one that diverges when invoked from the mutated state are
graded identically, because each test case starts from a fresh
context. -/
theorem gradeCode_fresh_state_per_test_witness :
    gradeCode exMut exLoopTests = gradeCode exMutDiverging exLoopTests :=
  (gradeCode_fresh_state_per_test Bool exMut exMutDiverging rfl rfl
    (fun c st isFn hret args => by
      have h2 : Exec.ret 1 ((false, true)) = Exec.ret c ((st, isFn)) := hret
      cases h2
      rfl)).1 exLoopTests

end CodeRunner
